import Mathlib

/-!
Shallow embedding of `src/src/lib.rs` (bevy_webcam_facial).

The repository is a single Rust file.  The parts the claims are about:

* `WebcamFacialData` (lines 60-69): the published record.
* the face-candidate selection and normalisation inside
  `webcam_facial_task_runner` (lines 159-183): `selectFace` below.
* the colorspace converter `yuyv_to_rgb` (lines 218-242).
* the Worker startup and capture loop (lines 116-196): `workerRun`/`runLoop`.
* the Driver tick / lifecycle flags / bounded(1) channel (lines 74-75,
  96-215): the small-step system `SysState`/`SysStep`.

Modelling conventions:
* Rust `i32` values are modelled as `Int`, byte values as `Nat`,
  `f32`/`f64` values as `ℚ` (exact real arithmetic; the only claim about
  float results concerns saturation of the `as u8` cast, which is
  rounding-independent).
* A Rust panic (`unwrap`/`expect`/out-of-bounds index) is modelled as
  `Option.none` or as an explicit outcome constructor.
* Rust `f32 as u8` saturates (clamps to `[0,255]`, truncating toward zero);
  `f64 as i32` likewise saturates at the `i32` bounds.  `toU8` and
  `asI32` model exactly those cast semantics.
-/

/-- `WebcamFacialData` (lib.rs lines 60-69).  `score` is an `f32` in the
source, modelled as `ℚ`; `#[derive(Default)]` gives the all-zero record. -/
structure WebcamFacialData where
  center_x : Int := 0
  center_y : Int := 0
  x : Int := 0
  y : Int := 0
  width : Int := 0
  height : Int := 0
  score : ℚ := 0
deriving DecidableEq, Repr

/-- One detector candidate: the bounding box (`bbox().x()`, `bbox().y()`,
`bbox().width()`, `bbox().height()`, all read `as i32` in the source) and
the `f64` confidence `score()`, modelled as `ℚ`. -/
structure FaceInfo where
  x : Int
  y : Int
  width : Int
  height : Int
  score : ℚ
deriving DecidableEq, Repr

/-- Rust `f64 as i32`: truncation toward zero, saturating at the `i32`
bounds.  Used for the `p.score() as i32` key of `max_by_key` (line 163). -/
def asI32 (q : ℚ) : Int :=
  let t : Int := if q < 0 then ⌈q⌉ else ⌊q⌋
  max (-2147483648) (min 2147483647 t)

/-- `Iterator::max_by_key` (line 163): `None` on an empty iterator, else a
maximal element; among elements with equal key the *last* one is returned. -/
def maxByKey (key : FaceInfo → Int) : List FaceInfo → Option FaceInfo
  | [] => none
  | f :: fs => some (fs.foldl (fun acc g => if key acc ≤ key g then g else acc) f)

/-- Candidate selection and normalisation, lib.rs lines 159-183.

The source computes `max_face = faces.iter().max_by_key(|p| p.score() as
i32)` and matches on it, but in the `Some` arm it reads every published
field from `faces[0]`, not from the maximal candidate.  `width / 2` and
`height / 2` are `i32` divisions (truncation toward zero, `Int.tdiv`);
`(width / 2) as i32` on the frame dimension is a `u32` division (`Nat`
division) cast afterwards. -/
def selectFace (faces : List FaceInfo) (frame_w frame_h : ℕ) : WebcamFacialData :=
  match maxByKey (fun p => asI32 p.score) faces, faces with
  | some _, f0 :: _ =>
      { x := f0.x
        y := f0.y
        width := f0.width
        height := f0.height
        score := f0.score
        center_x := (Int.tdiv f0.width 2 + f0.x) - (frame_w / 2 : ℕ)
        center_y := (Int.tdiv f0.height 2 + f0.y) - (frame_h / 2 : ℕ) }
  | _, _ => {}

/-- Rust `f32 as u8` (lines 226-231): truncate toward zero, saturating the
result into `[0,255]` (never a wrap-around).  NaN does not arise: all
inputs here are finite. -/
def toU8 (q : ℚ) : ℕ :=
  if q < 0 then 0 else min 255 (Int.toNat ⌊q⌋)

/-- The six output bytes one YUYV pair produces (lib.rs lines 221-231):
`r0 g0 b0 r1 g1 b1`, BT.601-style coefficients, both pixels sharing the
pair's `u` and `v` samples. -/
def rgbPair (y0 u y1 v : ℕ) : List ℕ :=
  let uf : ℚ := (u : ℚ) - 128
  let vf : ℚ := (v : ℚ) - 128
  [toU8 ((y0 : ℚ) + 1.4075 * vf),
   toU8 ((y0 : ℚ) - 0.3455 * uf - 0.7169 * vf),
   toU8 ((y0 : ℚ) + 1.7790 * uf),
   toU8 ((y1 : ℚ) + 1.4075 * vf),
   toU8 ((y1 : ℚ) - 0.3455 * uf - 0.7169 * vf),
   toU8 ((y1 : ℚ) + 1.7790 * uf)]

/-- The loop of `yuyv_to_rgb`, pair by pair.  `j` is the pair counter (the
source's `i = 2*j`), `k` the number of pairs still to process, `outLen`
the length `width*height*3` of the pre-allocated output vector.  The four
reads `yuyv_frame[i*2 .. i*2+3]` and the six writes
`rgb_frame[i*3 .. i*3+5]` panic when out of bounds (lines 221-239);
a panic is `none`.  Because the writes of pair `j` land exactly at
positions `6*j .. 6*j+5`, the written vector is the concatenation of the
pair blocks whenever every write is in bounds. -/
def yuyvGo (yuyv : List ℕ) (outLen : ℕ) : ℕ → ℕ → Option (List ℕ)
  | _, 0 => some []
  | j, k + 1 =>
      match yuyv[4 * j]?, yuyv[4 * j + 1]?, yuyv[4 * j + 2]?, yuyv[4 * j + 3]? with
      | some y0, some u, some y1, some v =>
          if 6 * j + 5 < outLen then
            match yuyvGo yuyv outLen (j + 1) k with
            | some rest => some (rgbPair y0 u y1 v ++ rest)
            | none => none
          else none
      | _, _, _, _ => none

/-- `yuyv_to_rgb` (lib.rs lines 218-242).  The source loop
`for i in (0..width*height).step_by(2)` runs `⌈width*height/2⌉` times;
`none` models a bounds panic. -/
def yuyv_to_rgb (yuyv : List ℕ) (width height : ℕ) : Option (List ℕ) :=
  yuyvGo yuyv (3 * (width * height)) 0 ((width * height + 1) / 2)

/-- Saturating cast of the scaled integer value `n / 10000` (exactly
`toU8` after clearing denominators; `/` on `ℤ` is here euclidean division,
which agrees with floor division for the positive divisor `10000`). -/
def sat255 (n : Int) : ℕ :=
  if n < 0 then 0 else min 255 (Int.toNat (n / 10000))

/-- `rgbPair` with the arithmetic scaled by `10000` into `ℤ`, the
kernel-computable form of the same six bytes. -/
def rgbPairZ (y0 u y1 v : ℕ) : List ℕ :=
  let uz : Int := (u : Int) - 128
  let vz : Int := (v : Int) - 128
  [sat255 (10000 * (y0 : Int) + 14075 * vz),
   sat255 (10000 * (y0 : Int) - 3455 * uz - 7169 * vz),
   sat255 (10000 * (y0 : Int) + 17790 * uz),
   sat255 (10000 * (y1 : Int) + 14075 * vz),
   sat255 (10000 * (y1 : Int) - 3455 * uz - 7169 * vz),
   sat255 (10000 * (y1 : Int) + 17790 * uz)]

theorem toU8_intCast_div (n : ℤ) : toU8 ((n : ℚ) / 10000) = sat255 n := by
  unfold toU8 sat255
  by_cases hn : n < 0
  · have hq : ((n : ℚ) / 10000) < 0 :=
      div_neg_of_neg_of_pos (by exact_mod_cast hn) (by norm_num)
    rw [if_pos hq, if_pos hn]
  · have hq : ¬ ((n : ℚ) / 10000 < 0) := by
      push_neg at hn ⊢
      exact div_nonneg (by exact_mod_cast hn) (by norm_num)
    rw [if_neg hq, if_neg hn]
    have h := Rat.floor_intCast_div_natCast n 10000
    norm_num at h
    rw [h]

theorem scale_add (c : ℚ) (cz : ℤ) (h : c * 10000 = (cz : ℚ)) (y a : ℤ) :
    (y : ℚ) + c * (a : ℚ) = ((10000 * y + cz * a : ℤ) : ℚ) / 10000 := by
  rw [eq_div_iff (by norm_num : (10000 : ℚ) ≠ 0)]
  push_cast
  rw [← h]
  ring

theorem scale_sub2 (c1 c2 : ℚ) (c1z c2z : ℤ) (h1 : c1 * 10000 = (c1z : ℚ))
    (h2 : c2 * 10000 = (c2z : ℚ)) (y a b : ℤ) :
    (y : ℚ) - c1 * (a : ℚ) - c2 * (b : ℚ) =
      ((10000 * y - c1z * a - c2z * b : ℤ) : ℚ) / 10000 := by
  rw [eq_div_iff (by norm_num : (10000 : ℚ) ≠ 0)]
  push_cast
  rw [← h1, ← h2]
  ring

theorem rgbPair_eq_rgbPairZ (y0 u y1 v : ℕ) : rgbPair y0 u y1 v = rgbPairZ y0 u y1 v := by
  unfold rgbPair rgbPairZ
  have hu : (u : ℚ) - 128 = (((u : Int) - 128 : Int) : ℚ) := by push_cast; ring
  have hv : (v : ℚ) - 128 = (((v : Int) - 128 : Int) : ℚ) := by push_cast; ring
  have hy0 : (y0 : ℚ) = ((y0 : Int) : ℚ) := by push_cast; ring
  have hy1 : (y1 : ℚ) = ((y1 : Int) : ℚ) := by push_cast; ring
  simp only [hu, hv, hy0, hy1]
  rw [scale_add 1.4075 14075 (by norm_num) (y0 : Int) ((v : Int) - 128),
    scale_sub2 0.3455 0.7169 3455 7169 (by norm_num) (by norm_num) (y0 : Int)
      ((u : Int) - 128) ((v : Int) - 128),
    scale_add 1.7790 17790 (by norm_num) (y0 : Int) ((u : Int) - 128),
    scale_add 1.4075 14075 (by norm_num) (y1 : Int) ((v : Int) - 128),
    scale_sub2 0.3455 0.7169 3455 7169 (by norm_num) (by norm_num) (y1 : Int)
      ((u : Int) - 128) ((v : Int) - 128),
    scale_add 1.7790 17790 (by norm_num) (y1 : Int) ((u : Int) - 128)]
  simp only [toU8_intCast_div]

theorem sat255_le (n : Int) : sat255 n ≤ 255 := by
  unfold sat255
  split
  · omega
  · exact min_le_left 255 _

theorem rgbPair_le (y0 u y1 v : ℕ) : ∀ b ∈ rgbPair y0 u y1 v, b ≤ 255 := by
  rw [rgbPair_eq_rgbPairZ]
  intro b hb
  simp only [rgbPairZ, List.mem_cons, List.not_mem_nil, or_false] at hb
  rcases hb with h | h | h | h | h | h <;> rw [h] <;> exact sat255_le _

theorem rgbPair_length (y0 u y1 v : ℕ) : (rgbPair y0 u y1 v).length = 6 := rfl

/-- Main loop lemma: when every read index `4*(j+t)+3` and write index
`6*(j+t)+5` of the `k` remaining pairs is in bounds, `yuyvGo` succeeds,
produces `6*k` bytes all at most 255, and the six bytes at positions
`6*t .. 6*t+5` of the output are exactly the pair block computed from the
input bytes at `4*(j+t) .. 4*(j+t)+3`. -/
theorem yuyvGo_spec (yuyv : List ℕ) (outLen : ℕ) :
    ∀ k j, 4 * (j + k) ≤ yuyv.length → 6 * (j + k) ≤ outLen →
      ∃ out, yuyvGo yuyv outLen j k = some out ∧ out.length = 6 * k ∧
        (∀ b ∈ out, b ≤ 255) ∧
        ∀ t, t < k →
          (out.drop (6 * t)).take 6 =
            rgbPair (yuyv.getD (4 * (j + t)) 0) (yuyv.getD (4 * (j + t) + 1) 0)
              (yuyv.getD (4 * (j + t) + 2) 0) (yuyv.getD (4 * (j + t) + 3) 0) := by
  intro k
  induction k with
  | zero =>
      intro j _ _
      exact ⟨[], rfl, rfl, fun b hb => absurd hb (List.not_mem_nil b),
        fun t ht => absurd ht (Nat.not_lt_zero t)⟩
  | succ k ih =>
      intro j hr hw
      have h0 : 4 * j < yuyv.length := by omega
      have h1 : 4 * j + 1 < yuyv.length := by omega
      have h2 : 4 * j + 2 < yuyv.length := by omega
      have h3 : 4 * j + 3 < yuyv.length := by omega
      obtain ⟨rest, hrest, hrlen, hrle, hrblock⟩ :=
        ih (j + 1) (by omega) (by omega)
      set P := rgbPair (yuyv.getD (4 * j) 0) (yuyv.getD (4 * j + 1) 0)
          (yuyv.getD (4 * j + 2) 0) (yuyv.getD (4 * j + 3) 0) with hP
      have hPlen : P.length = 6 := rgbPair_length _ _ _ _
      refine ⟨P ++ rest, ?_, ?_, ?_, ?_⟩
      · show yuyvGo yuyv outLen j (k + 1) = _
        rw [yuyvGo, List.getElem?_eq_getElem h0, List.getElem?_eq_getElem h1,
          List.getElem?_eq_getElem h2, List.getElem?_eq_getElem h3]
        simp only [hP, List.getD_eq_getElem _ _ h0, List.getD_eq_getElem _ _ h1,
          List.getD_eq_getElem _ _ h2, List.getD_eq_getElem _ _ h3]
        rw [if_pos (by omega : 6 * j + 5 < outLen), hrest]
      · rw [List.length_append, hrlen, hPlen]
        omega
      · intro b hb
        rcases List.mem_append.mp hb with hbP | hbR
        · exact rgbPair_le _ _ _ _ b hbP
        · exact hrle b hbR
      · intro t ht
        match t with
        | 0 =>
            rw [Nat.mul_zero, List.drop_zero, List.take_left' hPlen, Nat.add_zero]
        | t + 1 =>
            have h6 : 6 * (t + 1) = P.length + 6 * t := by rw [hPlen]; omega
            rw [h6, List.drop_append]
            have harith2 : j + (t + 1) = (j + 1) + t := by omega
            rw [harith2]
            exact hrblock t (by omega)

theorem toU8_eq_clamp (q : ℚ) : toU8 q = Int.toNat (min 255 (max 0 ⌊q⌋)) := by
  unfold toU8
  by_cases h : q < 0
  · rw [if_pos h]
    have hf : ¬ (0 : ℤ) ≤ ⌊q⌋ := fun hc => absurd (Int.floor_nonneg.mp hc) (not_le.mpr h)
    omega
  · rw [if_neg h]
    have hf : (0 : ℤ) ≤ ⌊q⌋ := Int.floor_nonneg.mpr (le_of_not_lt h)
    omega

/-- **C7** — safety: for any input buffer of length at least
`width*height*2` with `width*height` even, every read of
`yuyv_frame[i*2 .. i*2+3]` and every write of `rgb_frame[i*3 .. i*3+5]`
in `yuyv_to_rgb` is in bounds (the panic branch, modelled as `none`, is
unreachable), and the returned buffer has length exactly
`width*height*3`. -/
theorem yuyv_to_rgb_in_bounds_length (yuyv : List ℕ) (width height : ℕ)
    (hlen : 2 * (width * height) ≤ yuyv.length) (heven : Even (width * height)) :
    ∃ out, yuyv_to_rgb yuyv width height = some out ∧ out.length = 3 * (width * height) := by
  obtain ⟨m, hm⟩ := heven
  have hpairs : (width * height + 1) / 2 = m := by omega
  obtain ⟨out, hgo, hlen6, _⟩ :=
    yuyvGo_spec yuyv (3 * (width * height)) m 0 (by omega) (by omega)
  refine ⟨out, ?_, by omega⟩
  rw [yuyv_to_rgb, hpairs]
  exact hgo

/-- **C7 witness**: the 2×1 all-zero YUYV frame satisfies the
precondition and converts to a 6-byte RGB buffer. -/
theorem yuyv_to_rgb_in_bounds_length_witness :
    (2 * (2 * 1) ≤ ([0, 0, 0, 0] : List ℕ).length ∧ Even (2 * 1)) ∧
    (∃ out, yuyv_to_rgb [0, 0, 0, 0] 2 1 = some out ∧ out.length = 3 * (2 * 1)) :=
  ⟨⟨by decide, ⟨1, rfl⟩⟩, yuyv_to_rgb_in_bounds_length [0, 0, 0, 0] 2 1 (by decide) ⟨1, rfl⟩⟩

/-- **C6** — saturation: the `as u8` cast (`toU8`) clamps the BT.601
formula value to `[0,255]` before truncation (never a mod-2⁸ wrap), every
byte the converter emits is at most 255, and the six bytes at positions
`6*t .. 6*t+5` of the output are exactly `rgbPair` — the six `toU8`-
saturated BT.601 formula values — of pair `t`'s Y/U/V samples, for
arbitrary input bytes including the extremes 0 and 255. -/
theorem yuyv_to_rgb_saturated (yuyv : List ℕ) (width height : ℕ)
    (hlen : 2 * (width * height) ≤ yuyv.length) (heven : Even (width * height)) :
    (∀ q : ℚ, toU8 q = Int.toNat (min 255 (max 0 ⌊q⌋))) ∧
    ∃ out, yuyv_to_rgb yuyv width height = some out ∧
      (∀ b ∈ out, b ≤ 255) ∧
      (∀ t, t < width * height / 2 →
        (out.drop (6 * t)).take 6 =
          rgbPair (yuyv.getD (4 * t) 0) (yuyv.getD (4 * t + 1) 0)
            (yuyv.getD (4 * t + 2) 0) (yuyv.getD (4 * t + 3) 0)) := by
  refine ⟨toU8_eq_clamp, ?_⟩
  obtain ⟨m, hm⟩ := heven
  have hpairs : (width * height + 1) / 2 = m := by omega
  obtain ⟨out, hgo, hlen6, hle, hblock⟩ :=
    yuyvGo_spec yuyv (3 * (width * height)) m 0 (by omega) (by omega)
  simp only [Nat.zero_add] at hblock
  refine ⟨out, by rw [yuyv_to_rgb, hpairs]; exact hgo, hle, ?_⟩
  intro t ht
  exact hblock t (by omega)

/-- **C6 witness**: the theorem applied to the concrete 2×1 frame
`[255, 0, 0, 255]`, whose single pair has extreme Y/U/V samples. -/
theorem yuyv_to_rgb_saturated_witness :
    (2 * (2 * 1) ≤ ([255, 0, 0, 255] : List ℕ).length ∧ Even (2 * 1)) ∧
    ((∀ q : ℚ, toU8 q = Int.toNat (min 255 (max 0 ⌊q⌋))) ∧
    ∃ out, yuyv_to_rgb [255, 0, 0, 255] 2 1 = some out ∧
      (∀ b ∈ out, b ≤ 255) ∧
      (∀ t, t < 2 * 1 / 2 →
        (out.drop (6 * t)).take 6 =
          rgbPair (([255, 0, 0, 255] : List ℕ).getD (4 * t) 0)
            (([255, 0, 0, 255] : List ℕ).getD (4 * t + 1) 0)
            (([255, 0, 0, 255] : List ℕ).getD (4 * t + 2) 0)
            (([255, 0, 0, 255] : List ℕ).getD (4 * t + 3) 0))) :=
  ⟨⟨by decide, ⟨1, rfl⟩⟩, yuyv_to_rgb_saturated [255, 0, 0, 255] 2 1 (by decide) ⟨1, rfl⟩⟩

/-- **C9** — zero candidates (lib.rs lines 159-160, 180-182): the `None`
arm of the `match` leaves `WebcamFacialData::default()` untouched, so the
published record has every integer field 0 and score 0; it is an ordinary
value, not an error. -/
theorem selectFace_empty_zero (frame_w frame_h : ℕ) :
    selectFace [] frame_w frame_h =
      { center_x := 0, center_y := 0, x := 0, y := 0, width := 0, height := 0, score := 0 } :=
  rfl

/-- **C8** — single candidate: the published record carries the bounding
box and score of the unique candidate, with
`center_x = (width/2 + x) - (frame_w/2)` and
`center_y = (height/2 + y) - (frame_h/2)` (`i32` truncating divisions);
in particular bbox `(10,20,40,60)` on a 320×240 frame yields
`center_x = -130`, `center_y = -70`. -/
theorem selectFace_single_center (f : FaceInfo) (frame_w frame_h : ℕ) :
    (selectFace [f] frame_w frame_h =
      { center_x := (Int.tdiv f.width 2 + f.x) - (frame_w / 2 : ℕ)
        center_y := (Int.tdiv f.height 2 + f.y) - (frame_h / 2 : ℕ)
        x := f.x, y := f.y, width := f.width, height := f.height, score := f.score }) ∧
    selectFace [⟨10, 20, 40, 60, 5⟩] 320 240 =
      { center_x := -130, center_y := -70, x := 10, y := 20,
        width := 40, height := 60, score := 5 } :=
  ⟨rfl, by decide⟩

/-- **C1** — the code publishes `faces[0]`, not the best candidate: with
two candidates of score 1 (first, bbox `(0,0,10,10)`) and score 5 (second,
bbox `(50,60,20,30)`), `max_by_key` selects the score-5 candidate, yet the
published record copies bbox and score from `faces[0]`: its score is 1,
not the maximum 5. -/
theorem selectFace_uses_first_not_best :
    maxByKey (fun p => asI32 p.score)
        [⟨0, 0, 10, 10, 1⟩, ⟨50, 60, 20, 30, 5⟩] = some ⟨50, 60, 20, 30, 5⟩ ∧
    selectFace [⟨0, 0, 10, 10, 1⟩, ⟨50, 60, 20, 30, 5⟩] 320 240 =
      { center_x := -155, center_y := -115, x := 0, y := 0,
        width := 10, height := 10, score := 1 } ∧
    (1 : ℚ) ≠ 5 := by
  refine ⟨by decide, by decide, by decide⟩

/-! ## The Capture-Detect Worker (lib.rs lines 116-196)

The Worker body is an async task.  Its startup (lines 117-140) opens the
camera (`Camera::new(..).unwrap()` — a failure panics the task), starts it
(`camera.start(..).unwrap_or_else(|_| error!(..))` — a failure only logs),
and loads the detector model (`rustface::create_detector` — a failure logs
and calls `std::process::exit(1)`).  The loop (lines 142-193) runs while
the shared `status` flag reads `true`: capture
(`camera.capture().expect(..)` — a failure panics the task), convert
(`yuyv_to_rgb`), wrap (`ImageBuffer::from_vec(..).expect(..)` — `None`
when the buffer is shorter than `width*height*3`), grayscale + detect,
select (`selectFace`), send.

The loop is modelled as a function of the finite schedule of
`(flag value observed at the top of the iteration, capture result)`
pairs; an exhausted schedule stands for the flag reading `false`.
`detect` abstracts the external detector composed with the grayscale
conversion (both are functions of the RGB frame).  The channel send
(lines 185-192) never fails while the Driver holds the `Receiver`, and
blocking affects only timing, so a successful send appends the record to
the published list; blocking itself is studied in the `Step` relation
below. -/

/-- Result of one `camera.capture()` call (line 144). -/
inductive CaptureResult
  | frame (bytes : List ℕ)
  | captureErr
deriving DecidableEq, Repr

/-- How the Worker's unit of work ends.  A `panic` constructor aborts the
task itself; `exitProcess` is `std::process::exit` (line 133), the only
construct in the Worker that terminates the whole process. -/
inductive WorkerOutcome
  | completed
  | openPanic
  | exitProcess (code : ℕ)
  | capturePanic
  | convertPanic
  | imagePanic
deriving DecidableEq, Repr

/-- The capture loop, lib.rs lines 142-193: returns how the loop ends and
the list of `WebcamFacialData` records sent, in order. -/
def runLoop (detect : List ℕ → List FaceInfo) (width height : ℕ) :
    List (Bool × CaptureResult) → WorkerOutcome × List WebcamFacialData
  | [] => (.completed, [])
  | (false, _) :: _ => (.completed, [])
  | (true, .captureErr) :: _ => (.capturePanic, [])
  | (true, .frame bytes) :: rest =>
      match yuyv_to_rgb bytes width height with
      | none => (.convertPanic, [])
      | some rgb =>
          if width * height * 3 ≤ rgb.length then
            let d := selectFace (detect rgb) width height
            let r := runLoop detect width height rest
            (r.1, d :: r.2)
          else (.imagePanic, [])

/-- Which of the three startup steps (lines 117-135) succeed:
`Camera::new`, `camera.start`, `rustface::create_detector`. -/
structure StartupConds where
  openOk : Bool
  startOk : Bool
  modelOk : Bool

/-- Log line of `error!("Failed to start camera device!")` (line 126). -/
def startFailLog : List String := ["Failed to start camera device!"]

/-- Log line of `error!("Failed to create detector: ..")` (line 132). -/
def modelFailLog : List String := ["Failed to create detector"]

/-- The whole Worker task body (lib.rs lines 116-196): startup, then the
loop.  Returns the outcome, the error log lines emitted, and the records
published. -/
def workerRun (c : StartupConds) (detect : List ℕ → List FaceInfo) (width height : ℕ)
    (iters : List (Bool × CaptureResult)) :
    WorkerOutcome × List String × List WebcamFacialData :=
  if c.openOk = false then (.openPanic, [], [])
  else
    let logs := if c.startOk then [] else startFailLog
    if c.modelOk = false then (.exitProcess 1, logs ++ modelFailLog, [])
    else
      let r := runLoop detect width height iters
      (r.1, logs, r.2)

/-- **C10** — mid-loop capture failure (line 144): when the flag reads
`true` and `camera.capture()` returns an error, the Worker panics at that
point: nothing is published for that iteration, there is no retry, and no
subsequent iteration runs (the result is independent of the rest of the
schedule). -/
theorem runLoop_capture_error_aborts (detect : List ℕ → List FaceInfo)
    (width height : ℕ) (rest : List (Bool × CaptureResult)) :
    runLoop detect width height ((true, CaptureResult.captureErr) :: rest) =
      (WorkerOutcome.capturePanic, []) :=
  rfl

/-- **C2 counterexample** — a camera *open* failure is neither logged nor
survived: `Camera::new(&device_path).unwrap()` (line 118) panics the
Worker before the loop, even with a good frame scheduled; no log line is
emitted and nothing is captured or published, refuting the claim that an
open failure is logged and the loop proceeds. -/
theorem workerRun_open_failure_panics :
    workerRun ⟨false, false, true⟩ (fun _ => []) 2 1
        [(true, CaptureResult.frame [0, 0, 0, 0])] =
      (WorkerOutcome.openPanic, [], []) ∧
    WorkerOutcome.openPanic ≠ WorkerOutcome.completed :=
  ⟨rfl, by decide⟩

/-- **C2 (amended)** — a failure to configure/start the camera
(`camera.start(..)`, line 126) is logged and the loop proceeds exactly as
on success, for every schedule; a failure to *open* the camera device
(line 118) instead panics the Worker before the loop. -/
theorem workerRun_start_failure_logged_continues (startOk : Bool)
    (detect : List ℕ → List FaceInfo) (width height : ℕ)
    (iters : List (Bool × CaptureResult)) :
    workerRun ⟨true, startOk, true⟩ detect width height iters =
      ((runLoop detect width height iters).1,
        (if startOk then [] else startFailLog),
        (runLoop detect width height iters).2) := by
  simp [workerRun]

/-- `runLoop` never terminates the process: `std::process::exit` does not
occur in the loop body (lines 142-193). -/
theorem runLoop_ne_exitProcess (detect : List ℕ → List FaceInfo) (width height : ℕ) :
    ∀ (iters : List (Bool × CaptureResult)) (k : ℕ),
      (runLoop detect width height iters).1 ≠ WorkerOutcome.exitProcess k := by
  intro iters
  induction iters with
  | nil => intro k; simp [runLoop]
  | cons hd tl ih =>
      intro k
      obtain ⟨flag, cap⟩ := hd
      match flag, cap with
      | false, _ => simp [runLoop]
      | true, .captureErr => simp [runLoop]
      | true, .frame bytes =>
          simp only [runLoop]
          cases hconv : yuyv_to_rgb bytes width height with
          | none => simp
          | some rgb =>
              simp only []
              split
              · simpa using ih k
              · simp

/-- **C5** — fatal model-load failure (lines 128-135): if
`rustface::create_detector` fails (camera already opened), the process
exits with status 1 and nothing has been published; conversely
`std::process::exit` is reached only on a model-load failure, and only
with status 1 — the one process-terminating startup error. -/
theorem workerRun_model_failure_exits (c : StartupConds)
    (detect : List ℕ → List FaceInfo) (width height : ℕ)
    (iters : List (Bool × CaptureResult)) :
    (c.openOk = true → c.modelOk = false →
      workerRun c detect width height iters =
        (WorkerOutcome.exitProcess 1,
          (if c.startOk then [] else startFailLog) ++ modelFailLog, [])) ∧
    (∀ k, (workerRun c detect width height iters).1 = WorkerOutcome.exitProcess k →
      c.modelOk = false ∧ k = 1) := by
  obtain ⟨openOk, startOk, modelOk⟩ := c
  constructor
  · intro hopen hmodel
    subst hopen hmodel
    simp [workerRun]
  · intro k hk
    match openOk, modelOk with
    | false, _ => simp [workerRun] at hk
    | true, false =>
        simp only [workerRun] at hk
        norm_num at hk
        exact ⟨rfl, hk.symm⟩
    | true, true =>
        simp [workerRun] at hk
        exact absurd hk (runLoop_ne_exitProcess detect width height iters k)

/-- **C5 witness**: with camera open and start succeeding but the model
failing, the Worker exits the process with status 1 having published
nothing. -/
theorem workerRun_model_failure_exits_witness :
    ((⟨true, true, false⟩ : StartupConds).openOk = true ∧
      (⟨true, true, false⟩ : StartupConds).modelOk = false) ∧
    workerRun ⟨true, true, false⟩ (fun _ => []) 2 1 [] =
      (WorkerOutcome.exitProcess 1,
        (if (⟨true, true, false⟩ : StartupConds).startOk then [] else startFailLog)
          ++ modelFailLog, []) :=
  ⟨⟨rfl, rfl⟩,
    (workerRun_model_failure_exits ⟨true, true, false⟩ (fun _ => []) 2 1 []).1 rfl rfl⟩

/-! ## Lifecycle flags, Driver tick, and the bounded(1) channel

`WebcamFacialController` (lib.rs lines 41-50) holds `control : bool`
(external intent), `status : Arc<AtomicBool>` (worker-alive flag) and the
two endpoints of `crossbeam_channel::bounded(1)` (line 74).  The Driver is
the Bevy system `webcam_facial_task_runner` (lines 96-215), run once per
`Update` tick; Workers are the spawned tasks.

Small-step model: the channel is the list of undelivered records, and a
send is *enabled only when the channel has room* (capacity 1) — a Worker
wanting to send while the slot is full simply has no send transition,
which is crossbeam's blocking send.  The record a Worker sends is produced
by the external camera/detector, hence nondeterministic (`d` below). -/

/-- Phase of one spawned Worker task: at the top-of-loop flag check
(line 142), holding a computed record and trying to send it (line 185), or
finished (the async block returned, or panicked). -/
inductive WPhase
  | atCheck
  | wantSend (d : WebcamFacialData)
  | done
deriving DecidableEq, Repr

/-- Alive = the task has not finished. -/
def WPhase.isLive : WPhase → Bool
  | .done => false
  | _ => true

/-- The shared state: `control`/`status` flags, the spawned Worker tasks
(bevy entities with a `WebcamFacialTask`), the channel slot contents, and
the outward events already republished. -/
structure SysState where
  control : Bool
  status : Bool
  workers : List WPhase
  channel : List WebcamFacialData
  events : List WebcamFacialData
deriving DecidableEq, Repr

/-- Number of live (spawned, unfinished) Workers. -/
def live (s : SysState) : ℕ := s.workers.countP (fun w => WPhase.isLive w)

/-- One Driver tick, lib.rs lines 96-215, in source order:
if `control && !status` spawn a Worker and set `status := true`
(lines 103-200); if `!control && status` clear `status` (lines 202-204);
poll and reap finished Workers (lines 205-210); drain the channel
non-blockingly into outward events (lines 211-214). -/
def tick (s : SysState) : SysState :=
  let s1 := if s.control && !s.status
    then { s with workers := s.workers ++ [WPhase.atCheck], status := true } else s
  let s2 := if !s1.control && s1.status then { s1 with status := false } else s1
  let s3 := { s2 with workers := s2.workers.filter (fun w => WPhase.isLive w) }
  { s3 with channel := [], events := s3.events ++ s3.channel }

/-- Interleaved transitions of the two execution contexts plus the
external `control` toggle (the embedder may flip `control` at any time).
A Worker at the flag check reads `status` (line 142): `true` runs one
iteration — ending at the send, or panicking (capture failure etc.) —
`false` exits the loop.  `workerSend` requires the slot to be empty:
a full slot blocks the sender (crossbeam `bounded(1)` send). -/
inductive SysStep : SysState → SysState → Prop
  | toggle (s : SysState) (b : Bool) :
      SysStep s { s with control := b }
  | driver (s : SysState) :
      SysStep s (tick s)
  | workerIter (s : SysState) (l₁ l₂ : List WPhase) (d : WebcamFacialData)
      (hw : s.workers = l₁ ++ WPhase.atCheck :: l₂) (hs : s.status = true) :
      SysStep s { s with workers := l₁ ++ WPhase.wantSend d :: l₂ }
  | workerCrash (s : SysState) (l₁ l₂ : List WPhase)
      (hw : s.workers = l₁ ++ WPhase.atCheck :: l₂) (hs : s.status = true) :
      SysStep s { s with workers := l₁ ++ WPhase.done :: l₂ }
  | workerExit (s : SysState) (l₁ l₂ : List WPhase)
      (hw : s.workers = l₁ ++ WPhase.atCheck :: l₂) (hs : s.status = false) :
      SysStep s { s with workers := l₁ ++ WPhase.done :: l₂ }
  | workerSend (s : SysState) (l₁ l₂ : List WPhase) (d : WebcamFacialData)
      (hw : s.workers = l₁ ++ WPhase.wantSend d :: l₂) (hch : s.channel = []) :
      SysStep s { s with workers := l₁ ++ WPhase.atCheck :: l₂, channel := [d] }

/-- Plugin installation (lib.rs lines 72-93): empty channel, `status`
false, `control` from the `autostart` configuration. -/
def initState (autostart : Bool) : SysState :=
  { control := autostart, status := false, workers := [], channel := [], events := [] }

/-- States reachable from installation with `autostart = b`. -/
def Reachable (b : Bool) (s : SysState) : Prop :=
  Relation.ReflTransGen SysStep (initState b) s

/-- A step that is not an external toggle: `control` is unchanged. -/
def SysStepNT (s s' : SysState) : Prop := SysStep s s' ∧ s'.control = s.control

/-- States reachable when the embedder never toggles `control`. -/
def ReachableNT (b : Bool) (s : SysState) : Prop :=
  Relation.ReflTransGen SysStepNT (initState b) s

theorem countP_filter_self (l : List WPhase) :
    (l.filter (fun w => WPhase.isLive w)).countP (fun w => WPhase.isLive w) =
      l.countP (fun w => WPhase.isLive w) := by
  induction l with
  | nil => rfl
  | cons a t ih =>
      by_cases h : WPhase.isLive a <;>
        simp [List.filter_cons, List.countP_cons, h, ih]

theorem live_middle (l₁ l₂ : List WPhase) (x : WPhase) :
    (l₁ ++ x :: l₂).countP (fun w => WPhase.isLive w) =
      l₁.countP (fun w => WPhase.isLive w) + l₂.countP (fun w => WPhase.isLive w) +
        (if WPhase.isLive x then 1 else 0) := by
  rw [List.countP_append, List.countP_cons]
  ring

/-- The lifecycle invariant maintained in toggle-free executions. -/
def LifeInv (b : Bool) (s : SysState) : Prop :=
  s.control = b ∧ live s ≤ 1 ∧ (s.status = false → live s = 0) ∧
    (b = false → s.status = false)

theorem tick_preserves_lifeInv (b : Bool) (s : SysState) (hI : LifeInv b s) :
    LifeInv b (tick s) := by
  obtain ⟨hc, hle, hz, hb⟩ := hI
  obtain ⟨c0, st0, w0, ch0, ev0⟩ := s
  simp only at hc hz hb
  subst hc
  cases hcb : c0 <;> cases hst : st0 <;>
    simp_all [tick, live, LifeInv, countP_filter_self, List.countP_append,
      List.countP_cons]
  rw [show List.countP (fun w => WPhase.isLive w) w0 = 0 from
    List.countP_eq_zero.mpr (fun a ha => by simp [hz a ha])]
  simp [WPhase.isLive]

theorem sysStepNT_preserves (b : Bool) {s s' : SysState}
    (h : SysStepNT s s') (hI : LifeInv b s) : LifeInv b s' := by
  obtain ⟨hstep, hc⟩ := h
  obtain ⟨hcl, hle, hz, hb⟩ := hI
  cases hstep with
  | toggle bb =>
      simp only at hc
      subst hc
      obtain ⟨c0, st0, w0, ch0, ev0⟩ := s
      exact ⟨hcl, hle, hz, hb⟩
  | driver => exact tick_preserves_lifeInv b s ⟨hcl, hle, hz, hb⟩
  | workerIter l₁ l₂ d hw hs =>
      have hlive : live s = l₁.countP (fun w => WPhase.isLive w) +
          (l₂.countP (fun w => WPhase.isLive w) + 1) := by
        simp [live, hw, WPhase.isLive]
      refine ⟨hcl, ?_, ?_, ?_⟩
      · have hlive2 : live { s with workers := l₁ ++ WPhase.wantSend d :: l₂ } =
            l₁.countP (fun w => WPhase.isLive w) +
              (l₂.countP (fun w => WPhase.isLive w) + 1) := by
          simp [live, WPhase.isLive]
        omega
      · intro hf
        have hf2 : s.status = false := hf
        rw [hs] at hf2
        exact Bool.noConfusion hf2
      · intro hbf
        exact absurd (hb hbf) (by simp [hs])
  | workerCrash l₁ l₂ hw hs =>
      have hlive : live s = l₁.countP (fun w => WPhase.isLive w) +
          (l₂.countP (fun w => WPhase.isLive w) + 1) := by
        simp [live, hw, WPhase.isLive]
      refine ⟨hcl, ?_, ?_, ?_⟩
      · have hlive2 : live { s with workers := l₁ ++ WPhase.done :: l₂ } =
            l₁.countP (fun w => WPhase.isLive w) +
              l₂.countP (fun w => WPhase.isLive w) := by
          simp [live, WPhase.isLive]
        omega
      · intro hf
        have hf2 : s.status = false := hf
        rw [hs] at hf2
        exact Bool.noConfusion hf2
      · intro hbf
        exact absurd (hb hbf) (by simp [hs])
  | workerExit l₁ l₂ hw hs =>
      have hlive : live s = l₁.countP (fun w => WPhase.isLive w) +
          (l₂.countP (fun w => WPhase.isLive w) + 1) := by
        simp [live, hw, WPhase.isLive]
      have h0 := hz hs
      exfalso
      omega
  | workerSend l₁ l₂ d hw hch =>
      have hlive : live s = l₁.countP (fun w => WPhase.isLive w) +
          (l₂.countP (fun w => WPhase.isLive w) + 1) := by
        simp [live, hw, WPhase.isLive]
      refine ⟨hcl, ?_, ?_, ?_⟩
      · have hlive2 : live { s with workers := l₁ ++ WPhase.atCheck :: l₂, channel := [d] } =
            l₁.countP (fun w => WPhase.isLive w) +
              (l₂.countP (fun w => WPhase.isLive w) + 1) := by
          simp [live, WPhase.isLive]
        omega
      · intro hf
        have hf2 : s.status = false := hf
        have h0 := hz hf2
        exfalso
        omega
      · intro hbf
        have hf2 := hb hbf
        have h0 := hz hf2
        exfalso
        omega

theorem lifeInv_reachableNT (b : Bool) (s : SysState) (h : ReachableNT b s) :
    LifeInv b s := by
  induction h with
  | refl =>
      exact ⟨rfl, by simp [live, initState], fun _ => by simp [live, initState],
        fun _ => rfl⟩
  | tail hr hstep ih => exact sysStepNT_preserves b hstep ih

/-- The state with two simultaneously live Workers reached by the
disable/re-enable race. -/
def twoWorkersState : SysState :=
  { control := true, status := true, workers := [WPhase.atCheck, WPhase.atCheck],
    channel := [], events := [] }

/-- **C3 counterexample** — two live Workers are reachable: tick (spawns
W1), external disable, tick (clears `status` while W1 is still
mid-iteration), external re-enable, tick (spawns W2 because `status` reads
false).  Both Workers are live — and both will observe `status = true`
again, so neither exits. -/
theorem two_live_workers_reachable :
    Reachable true twoWorkersState ∧ live twoWorkersState = 2 := by
  constructor
  · have c1 : Reachable true (tick (initState true)) :=
      Relation.ReflTransGen.single (SysStep.driver _)
    have c2 := c1.tail (SysStep.toggle _ false)
    have c3 := c2.tail (SysStep.driver _)
    have c4 := c3.tail (SysStep.toggle _ true)
    have c5 := c4.tail (SysStep.driver _)
    have e : tick { tick { tick (initState true) with control := false }
        with control := true } = twoWorkersState := by decide
    rwa [e] at c5
  · decide

/-- **C3 (amended)** — a Driver tick spawns a Worker only when the
`status` flag is false: when `status` is true a tick never increases the
number of live Workers; and in executions where `control` is never
toggled, at most one Worker is alive in every reachable state.  (With
toggling, the invariant fails: see the counterexample.) -/
theorem tick_spawn_only_when_not_running :
    (∀ s : SysState, s.status = true → live (tick s) ≤ live s) ∧
    (∀ (b : Bool) (s : SysState), ReachableNT b s → live s ≤ 1) := by
  constructor
  · intro s hs
    obtain ⟨c0, st0, w0, ch0, ev0⟩ := s
    simp only at hs
    subst hs
    cases c0 <;> simp [tick, live, countP_filter_self]
  · intro b s h
    exact (lifeInv_reachableNT b s h).2.1

/-- **C3 witness**: the amended theorem applied at `twoWorkersState`
(whose `status` is true) and at the installation state. -/
theorem tick_spawn_only_when_not_running_witness :
    live (tick twoWorkersState) ≤ live twoWorkersState ∧
      live (initState true) ≤ 1 :=
  ⟨tick_spawn_only_when_not_running.1 twoWorkersState rfl,
   tick_spawn_only_when_not_running.2 true (initState true)
     Relation.ReflTransGen.refl⟩

/-- **C4** — the `bounded(1)` channel (lib.rs line 74): (i) every
reachable state holds at most one undelivered record; (ii) an undelivered
record is never replaced — any step leaves it in place or delivers it
(the Driver's drain); (iii) while the slot is full no step grows the
channel: the would-be sender has no enabled send transition, i.e. it
blocks until the Driver drains.  No record is dropped by overwrite and
nothing queues beyond capacity one. -/
theorem channel_single_slot :
    (∀ (b : Bool) (s : SysState), Reachable b s → s.channel.length ≤ 1) ∧
    (∀ (s s' : SysState) (d : WebcamFacialData),
      SysStep s s' → s.channel = [d] → s'.channel = [d] ∨ s'.channel = []) ∧
    (∀ (s s' : SysState), SysStep s s' → s.channel ≠ [] →
      s'.channel.length ≤ s.channel.length) := by
  refine ⟨?_, ?_, ?_⟩
  · intro b s h
    induction h with
    | refl => simp [initState]
    | tail hr hstep ih =>
        cases hstep with
        | toggle bb => exact ih
        | driver => exact Nat.zero_le 1
        | workerIter l₁ l₂ d hw hs => exact ih
        | workerCrash l₁ l₂ hw hs => exact ih
        | workerExit l₁ l₂ hw hs => exact ih
        | workerSend l₁ l₂ d hw hch => exact Nat.le_refl 1
  · intro s s' d hstep hch
    cases hstep with
    | toggle bb => exact Or.inl hch
    | driver => exact Or.inr rfl
    | workerIter l₁ l₂ d2 hw hs => exact Or.inl hch
    | workerCrash l₁ l₂ hw hs => exact Or.inl hch
    | workerExit l₁ l₂ hw hs => exact Or.inl hch
    | workerSend l₁ l₂ d2 hw hch0 =>
        rw [hch0] at hch
        exact List.noConfusion hch
  · intro s s' hstep hne
    cases hstep with
    | toggle bb => exact Nat.le_refl _
    | driver => exact Nat.zero_le _
    | workerIter l₁ l₂ d hw hs => exact Nat.le_refl _
    | workerCrash l₁ l₂ hw hs => exact Nat.le_refl _
    | workerExit l₁ l₂ hw hs => exact Nat.le_refl _
    | workerSend l₁ l₂ d hw hch => exact absurd hch hne

/-- A state whose channel slot holds one undelivered record. -/
def mailboxState : SysState :=
  { control := true, status := true, workers := [],
    channel := [({} : WebcamFacialData)], events := [] }

/-- **C4 witness**: the three parts applied at the installation state and
at a concrete toggle step from a full-slot state. -/
theorem channel_single_slot_witness :
    (initState true).channel.length ≤ 1 ∧
    (({ mailboxState with control := false } : SysState).channel =
        [({} : WebcamFacialData)] ∨
      ({ mailboxState with control := false } : SysState).channel = []) ∧
    ({ mailboxState with control := false } : SysState).channel.length ≤
      mailboxState.channel.length :=
  ⟨channel_single_slot.1 true (initState true) Relation.ReflTransGen.refl,
   channel_single_slot.2.1 mailboxState _ ({} : WebcamFacialData)
     (SysStep.toggle mailboxState false) rfl,
   channel_single_slot.2.2 mailboxState _ (SysStep.toggle mailboxState false)
     (by simp [mailboxState])⟩
